import Mathlib

/-!
Shallow embedding of `natural_cubic_splines_interpolation.py`.

Real numbers of the program are modelled exactly as rationals (`ℚ`).
The Euclidean residual norm `np.linalg.norm(A @ x - b)` only ever appears
in the comparison `residual > tol`; for `tol ≥ 0` (the module always uses
`tol = 1e-8`) that comparison is equivalent to `residual² > tol²`, so the
embedding works with the squared norm `resSq`, which is rational-valued
and executable.  The solver's unbounded `while` loop is embedded with an
explicit fuel parameter: `none` means the loop was still running after
`fuel` residual checks.
-/

namespace NCSI

/-- Point `(x, y)` of the input sequence. -/
abbrev Point := ℚ × ℚ

/-- Python value passed to `trazador_cubico`: the function only recognizes
`list` and `tuple`; a numpy array (or anything else) fails the
`isinstance(points, (list, tuple))` test even when it holds valid points. -/
inductive PyValue where
  | pyList (pts : List Point)
  | pyTuple (pts : List Point)
  | npArray (pts : List Point)
  | pyOther
deriving DecidableEq

/-- Matrix-vector product `np.matmul(A, x)` for a row-major matrix. -/
def mulVec (A : List (List ℚ)) (x : List ℚ) : List ℚ :=
  A.map (fun row => (List.zipWith (fun a v => a * v) row x).sum)

/-- Squared Euclidean norm of the residual `A @ x - b`
(`np.linalg.norm(np.matmul(A, x) - b) ** 2`). -/
def resSq (A : List (List ℚ)) (b x : List ℚ) : ℚ :=
  ((List.zipWith (fun a v => a - v) (mulVec A x) b).map (fun t => t ^ 2)).sum

/-- Inner accumulation of `relajacion`, line 46-49:
`sigma = Σ_{j ≠ i} A[i][j] * x[j]` with `j` ranging over `A.shape[1]`
(the common row length of the numpy matrix, here the first row's length). -/
def sorSigma (A : List (List ℚ)) (x : List ℚ) (i : ℕ) : ℚ :=
  ((List.range (A.headD []).length).map
    (fun j => if j = i then 0 else (A.getD i []).getD j 0 * x.getD j 0)).sum

/-- Body of the row loop of `relajacion`, line 45-50: update
`x[i] = (1 - omega) * x[i] + (omega / A[i][i]) * (b[i] - sigma)`. -/
def sweepStep (A : List (List ℚ)) (b : List ℚ) (om : ℚ) (x : List ℚ) (i : ℕ) : List ℚ :=
  x.set i ((1 - om) * x.getD i 0 +
    (om / (A.getD i []).getD i 0) * (b.getD i 0 - sorSigma A x i))

/-- One full sweep `for i in range(A.shape[0])` of `relajacion`. -/
def sweep (A : List (List ℚ)) (b : List ℚ) (om : ℚ) (x : List ℚ) : List ℚ :=
  (List.range A.length).foldl (sweepStep A b om) x

/-- Loop of `relajacion`, lines 43-52: `while residual > tol: sweep`, embedded
with fuel counting residual checks; `none` means the loop is still running. -/
def relajacionGo (A : List (List ℚ)) (b : List ℚ) (om tol : ℚ) :
    ℕ → List ℚ → Option (List ℚ)
  | 0, x => if resSq A b x ≤ tol ^ 2 then some x else none
  | fuel + 1, x =>
    if resSq A b x ≤ tol ^ 2 then some x
    else relajacionGo A b om tol fuel (sweep A b om x)

/-- Successive over-relaxation solver `relajacion(A, b, x0, omega, tol)`,
lines 22-52 of the source. -/
def relajacion (A : List (List ℚ)) (b x0 : List ℚ) (om tol : ℚ) (fuel : ℕ) :
    Option (List ℚ) :=
  relajacionGo A b om tol fuel x0

/-- Default relaxation factor `omega = 0.5`. -/
def omega0 : ℚ := 1 / 2

/-- Default tolerance `tol = 1e-8`. -/
def tol0 : ℚ := 1 / 100000000

/-- The `x`-coordinates `points[:, 0]`. -/
def xcoords (pts : List Point) : List ℚ := pts.map Prod.fst

/-- The `y`-coordinates `points[:, 1]`. -/
def ycoords (pts : List Point) : List ℚ := pts.map Prod.snd

/-- Knot spacings `hk = points[1:, 0] - points[:-1, 0]`, line 71. -/
def hk (pts : List Point) : List ℚ :=
  List.zipWith (fun a v => a - v) ((xcoords pts).drop 1) ((xcoords pts).dropLast)

/-- Vertical differences `delta_yk = points[1:, 1] - points[:-1, 1]`, line 73. -/
def dyk (pts : List Point) : List ℚ :=
  List.zipWith (fun a v => a - v) ((ycoords pts).drop 1) ((ycoords pts).dropLast)

/-- Tridiagonal system `(A, b)` assembled by lines 75-92: one row and one
right-hand entry per `i in range(1, k)`, with `k = hk.shape[0]`. -/
def spline_system (pts : List Point) : List (List ℚ) × List ℚ :=
  let h := hk pts
  let dy := dyk pts
  let k := h.length
  ((List.range' 1 (k - 1)).map (fun i =>
      if i = 1 then
        [2 * (h.getD (i - 1) 0 + h.getD i 0), h.getD i 0] ++ List.replicate (k - 3) 0
      else if i = k - 1 then
        List.replicate (k - 3) 0 ++ [h.getD (i - 1) 0, 2 * (h.getD (i - 1) 0 + h.getD i 0)]
      else
        List.replicate (i - 2) 0 ++
          [h.getD (i - 1) 0, 2 * (h.getD (i - 1) 0 + h.getD i 0), h.getD i 0] ++
          List.replicate (k - 2 - i) 0),
   (List.range' 1 (k - 1)).map (fun i =>
      6 * (dy.getD i 0 / h.getD i 0 - dy.getD (i - 1) 0 / h.getD (i - 1) 0)))

/-- Second-derivative vector of lines 94-98: solve the tridiagonal system by
`relajacion` from the zero vector `np.zeros(b.shape)` (with the solver's
default `omega = 0.5`, `tol = 1e-8`), then pad with the natural boundary
zeros: `sigmas = np.append(0, np.append(sigmas, 0))`. -/
def spline_sigmas (pts : List Point) (fuel : ℕ) : Option (List ℚ) :=
  let Ab := spline_system pts
  (relajacion Ab.1 Ab.2 (List.replicate Ab.2.length 0) omega0 tol0 fuel).map
    (fun sol => 0 :: (sol ++ [0]))

/-- Coefficient computation of lines 100-116 from the padded sigma vector:
`for i in range(k-1)` append one entry to each of `a, b, c, d`. -/
def coeffsFrom (pts : List Point) (sig : List ℚ) :
    List ℚ × List ℚ × List ℚ × List ℚ :=
  let h := hk pts
  let k := h.length
  let yl := ycoords pts
  ((List.range (k - 1)).map (fun i => (sig.getD (i + 1) 0 - sig.getD i 0) / (6 * h.getD i 0)),
   (List.range (k - 1)).map (fun i => sig.getD i 0 / 2),
   (List.range (k - 1)).map (fun i =>
      (yl.getD (i + 1) 0 - yl.getD i 0) / h.getD i 0 -
        (2 * h.getD i 0 * sig.getD i 0 + h.getD i 0 * sig.getD (i + 1) 0) / 6),
   (List.range (k - 1)).map (fun i => yl.getD i 0))

/-- Lines 68-118 of `trazador_cubico` after validation: build the system,
solve it, pad the sigmas and derive the per-segment coefficients. -/
def spline_coeffs (pts : List Point) (fuel : ℕ) :
    Option (List ℚ × List ℚ × List ℚ × List ℚ) :=
  (spline_sigmas pts fuel).map (coeffsFrom pts)

/-- Message of the `ValueError` raised at line 64. -/
def msgNotSeq : String := "'points' must be a list or tuple"

/-- Message of the `ValueError` raised at line 66. -/
def msgTooShort : String := "The length of 'points' must be greater than 1"

/-- The function `trazador_cubico(points)`, lines 54-118.  `Except.error`
is a raised `ValueError` carrying its message; `Except.ok none` means the
solver loop was still running after `fuel` residual checks. -/
def trazador_cubico (v : PyValue) (fuel : ℕ) :
    Except String (Option (List ℚ × List ℚ × List ℚ × List ℚ)) :=
  match v with
  | PyValue.pyList pts =>
    if pts.length < 4 then Except.error msgTooShort else Except.ok (spline_coeffs pts fuel)
  | PyValue.pyTuple pts =>
    if pts.length < 4 then Except.error msgTooShort else Except.ok (spline_coeffs pts fuel)
  | _ => Except.error msgNotSeq

/-- Heap-level loop of `relajacion`: the heap is a list of arrays indexed
by address, the estimate lives at address `xaddr`, and each sweep of
line 45-50 only writes through `x`, i.e. at address `xaddr`. -/
def relajacionHeapGo (A : List (List ℚ)) (b : List ℚ) (om tol : ℚ) (xaddr : ℕ) :
    ℕ → List (List ℚ) → Option (List (List ℚ))
  | 0, hp => if resSq A b (hp.getD xaddr []) ≤ tol ^ 2 then some hp else none
  | fuel + 1, hp =>
    if resSq A b (hp.getD xaddr []) ≤ tol ^ 2 then some hp
    else relajacionHeapGo A b om tol xaddr fuel
      (hp.set xaddr (sweep A b om (hp.getD xaddr [])))

/-- Reference-semantics embedding of `relajacion`: the caller's `x0` is the
array at address `x0addr` of the heap `hp`; line 42 `x = x0.copy()`
allocates a fresh address holding a copy of it, and the loop then mutates
only that fresh address.  Returns the final heap and the address of `x`. -/
def relajacionHeap (A : List (List ℚ)) (b : List ℚ) (om tol : ℚ) (fuel : ℕ)
    (hp : List (List ℚ)) (x0addr : ℕ) : Option (List (List ℚ) × ℕ) :=
  let xaddr := hp.length
  let hp1 := hp ++ [hp.getD x0addr []]
  (relajacionHeapGo A b om tol xaddr fuel hp1).map (fun hp2 => (hp2, xaddr))

/-- Row update as worded by the specification of the solver: the sum ranges
over the indices `j ≠ i` of row `i` of the square matrix. -/
def modelUpdate (A : List (List ℚ)) (b : List ℚ) (om : ℚ) (x : List ℚ) (i : ℕ) :
    List ℚ :=
  let others := (((List.range A.length).filter (fun j => j ≠ i)).map
      (fun j => (A.getD i []).getD j 0 * x.getD j 0)).sum
  x.set i ((1 - om) * x.getD i 0 + (om / (A.getD i []).getD i 0) * (b.getD i 0 - others))

/-- Sweep of the rows `i = 0, 1, ..., m-1` in increasing order, written as a
counting loop. -/
def modelSweepGo (A : List (List ℚ)) (b : List ℚ) (om : ℚ) :
    ℕ → ℕ → List ℚ → List ℚ
  | 0, _, x => x
  | steps + 1, i, x => modelSweepGo A b om steps (i + 1) (modelUpdate A b om x i)

/-- One full in-place sweep over all rows, per the specification's wording. -/
def modelSweep (A : List (List ℚ)) (b : List ℚ) (om : ℚ) (x : List ℚ) : List ℚ :=
  modelSweepGo A b om A.length 0 x

/-- Check-first loop: test the residual before each sweep (including before
the first one), return as soon as it is within tolerance. -/
def relajacionModelGo (A : List (List ℚ)) (b : List ℚ) (om tol : ℚ) :
    ℕ → List ℚ → Option (List ℚ)
  | 0, x => if resSq A b x ≤ tol ^ 2 then some x else none
  | fuel + 1, x =>
    if resSq A b x ≤ tol ^ 2 then some x
    else relajacionModelGo A b om tol fuel (modelSweep A b om x)

/-- Solver model written from the amended wording of the contract:
residual check first, then a full increasing-order in-place sweep. -/
def relajacionModel (A : List (List ℚ)) (b x0 : List ℚ) (om tol : ℚ) (fuel : ℕ) :
    Option (List ℚ) :=
  relajacionModelGo A b om tol fuel x0

/-- Sweep-first loop, written from the claim's wording that a full sweep over
all rows precedes every residual check: sweep, then test, repeat. -/
def relajacionClaimedGo (A : List (List ℚ)) (b : List ℚ) (om tol : ℚ) :
    ℕ → List ℚ → Option (List ℚ)
  | 0, _ => none
  | fuel + 1, x =>
    let x1 := sweep A b om x
    if resSq A b x1 ≤ tol ^ 2 then some x1
    else relajacionClaimedGo A b om tol fuel x1

/-- Solver as described by the claim: a full sweep before each residual
check, returning only when the residual is within tolerance. -/
def relajacionClaimed (A : List (List ℚ)) (b x0 : List ℚ) (om tol : ℚ) (fuel : ℕ) :
    Option (List ℚ) :=
  relajacionClaimedGo A b om tol fuel x0

/-- Segment polynomial `a*(x - xi)^3 + b*(x - xi)^2 + c*(x - xi) + d`
(the expression evaluated at line 142 of the plotter). -/
def evalSegment (a b c d xi x : ℚ) : ℚ :=
  a * (x - xi) ^ 3 + b * (x - xi) ^ 2 + c * (x - xi) + d

/-- Four-point example of the specification, §8 item 6. -/
def demoPts : List Point := [(0, 0), (1, 1), (2, 0), (3, -1)]

/-! ### List access helpers -/

theorem getD_replicate_zero (m i : ℕ) : (List.replicate m (0 : ℚ)).getD i 0 = 0 := by
  rw [List.getD_eq_getElem?_getD, List.getElem?_replicate]
  split <;> rfl

theorem getD_map_range {α : Type} (m : ℕ) (f : ℕ → α) (d : α) (i : ℕ) (h : i < m) :
    ((List.range m).map f).getD i d = f i := by
  rw [List.getD_eq_getElem?_getD, List.getElem?_map, List.getElem?_range h]
  rfl

theorem getD_map_range_one {α : Type} (m : ℕ) (f : ℕ → α) (d : α) (i : ℕ)
    (h : i < m) : ((List.range' 1 m).map f).getD i d = f (i + 1) := by
  rw [List.getD_eq_getElem?_getD, List.getElem?_map, List.getElem?_range' 1 1 h]
  simp [Nat.add_comm]

theorem getD_zipWith_sub (l1 l2 : List ℚ) (i : ℕ) (h1 : i < l1.length)
    (h2 : i < l2.length) :
    (List.zipWith (fun a v => a - v) l1 l2).getD i 0 = l1.getD i 0 - l2.getD i 0 := by
  rw [List.getD_eq_getElem?_getD, List.getElem?_zipWith',
    List.getElem?_eq_getElem h1, List.getElem?_eq_getElem h2,
    List.getD_eq_getElem, List.getD_eq_getElem]
  rfl

theorem getD_drop_one (l : List ℚ) (i : ℕ) : (l.drop 1).getD i 0 = l.getD (i + 1) 0 := by
  rw [List.getD_eq_getElem?_getD, List.getD_eq_getElem?_getD, List.getElem?_drop,
    Nat.add_comm]

theorem getD_dropLast (l : List ℚ) (i : ℕ) (h : i < l.length - 1) :
    l.dropLast.getD i 0 = l.getD i 0 := by
  rw [List.getD_eq_getElem?_getD, List.getD_eq_getElem?_getD, List.getElem?_dropLast,
    if_pos h]

/-! ### Shape facts about the derived vectors -/

theorem hk_length (pts : List Point) : (hk pts).length = pts.length - 1 := by
  simp [hk, xcoords]

theorem dyk_length (pts : List Point) : (dyk pts).length = pts.length - 1 := by
  simp [dyk, ycoords]

theorem hk_getD (pts : List Point) (i : ℕ) (h : i + 1 < pts.length) :
    (hk pts).getD i 0 = (xcoords pts).getD (i + 1) 0 - (xcoords pts).getD i 0 := by
  have hx : (xcoords pts).length = pts.length := by simp [xcoords]
  rw [hk, getD_zipWith_sub _ _ _ (by simp [hx]; omega) (by simp [hx]; omega),
    getD_drop_one, getD_dropLast _ _ (by omega)]

theorem dyk_getD (pts : List Point) (i : ℕ) (h : i + 1 < pts.length) :
    (dyk pts).getD i 0 = (ycoords pts).getD (i + 1) 0 - (ycoords pts).getD i 0 := by
  have hy : (ycoords pts).length = pts.length := by simp [ycoords]
  rw [dyk, getD_zipWith_sub _ _ _ (by simp [hy]; omega) (by simp [hy]; omega),
    getD_drop_one, getD_dropLast _ _ (by omega)]

theorem spline_system_rows (pts : List Point) :
    (spline_system pts).1.length = pts.length - 2 := by
  simp [spline_system, hk_length]
  omega

theorem spline_system_rhs_length (pts : List Point) :
    (spline_system pts).2.length = pts.length - 2 := by
  simp [spline_system, hk_length]
  omega

/-! ### Solver shape facts -/

theorem sweepStep_length (A : List (List ℚ)) (b : List ℚ) (om : ℚ) (x : List ℚ)
    (i : ℕ) : (sweepStep A b om x i).length = x.length := by
  simp [sweepStep]

theorem sweep_length (A : List (List ℚ)) (b : List ℚ) (om : ℚ) (x : List ℚ) :
    (sweep A b om x).length = x.length := by
  rw [sweep]
  generalize List.range A.length = l
  induction l generalizing x with
  | nil => rfl
  | cons j l ih => rw [List.foldl_cons, ih, sweepStep_length]

theorem relajacionGo_length (A : List (List ℚ)) (b : List ℚ) (om tol : ℚ) :
    ∀ (fuel : ℕ) (x y : List ℚ),
      relajacionGo A b om tol fuel x = some y → y.length = x.length := by
  intro fuel
  induction fuel with
  | zero =>
    intro x y h
    simp only [relajacionGo] at h
    split at h <;> simp_all
  | succ n ih =>
    intro x y h
    simp only [relajacionGo] at h
    split at h
    · simp_all
    · rw [ih _ _ h, sweep_length]

/-- Claim C5: for every valid point sequence of `n` points, the assembled
second-derivative vector has length `n` and its first and last entries are
exactly `0` (the natural boundary condition). -/
theorem spline_sigmas_natural_boundary (pts : List Point) (fuel : ℕ) (s : List ℚ)
    (hn : 4 ≤ pts.length) (hs : spline_sigmas pts fuel = some s) :
    s.length = pts.length ∧ s.getD 0 0 = 0 ∧ s.getD (pts.length - 1) 0 = 0 := by
  simp only [spline_sigmas, relajacion, Option.map_eq_some'] at hs
  obtain ⟨sol, hsol, rfl⟩ := hs
  have hlen : sol.length = pts.length - 2 := by
    rw [relajacionGo_length _ _ _ _ _ _ _ hsol, List.length_replicate,
      spline_system_rhs_length]
  refine ⟨?_, rfl, ?_⟩
  · simp only [List.length_cons, List.length_append, List.length_nil, hlen]
    omega
  · rw [show pts.length - 1 = (pts.length - 2) + 1 by omega, List.getD_cons_succ,
      List.getD_append_right sol [0] 0 (pts.length - 2) (by omega)]
    simp [hlen]

/-- Witness for C5 at the specification's four-point example. -/
theorem spline_sigmas_natural_boundary_witness :
    (spline_sigmas demoPts 200).isSome = true ∧
    ((spline_sigmas demoPts 200).getD []).length = 4 ∧
    ((spline_sigmas demoPts 200).getD []).getD 0 0 = 0 ∧
    ((spline_sigmas demoPts 200).getD []).getD 3 0 = 0 := by
  have h1 : (spline_sigmas demoPts 200).isSome = true := by with_unfolding_all decide
  obtain ⟨s, hs⟩ := Option.isSome_iff_exists.mp h1
  have h3 := spline_sigmas_natural_boundary demoPts 200 s (by decide) hs
  rw [hs]
  exact ⟨rfl, h3.1, h3.2.1, h3.2.2⟩

theorem spline_coeffs_a_length (pts : List Point) (fuel : ℕ) (a b c d : List ℚ)
    (hc : spline_coeffs pts fuel = some (a, b, c, d)) :
    a.length = pts.length - 2 := by
  simp only [spline_coeffs, Option.map_eq_some'] at hc
  obtain ⟨s, _, hc⟩ := hc
  simp only [coeffsFrom, Prod.mk.injEq] at hc
  rw [← hc.1, List.length_map, List.length_range, hk_length]
  omega

/-- Claim C2: every produced coefficient quadruple satisfies the four
closed-form relations in the assembled sigma vector, the knot spacings and
the vertical differences. -/
theorem spline_coeff_formulas (pts : List Point) (fuel : ℕ) (s : List ℚ)
    (a b c d : List ℚ) (hs : spline_sigmas pts fuel = some s)
    (hc : spline_coeffs pts fuel = some (a, b, c, d)) (i : ℕ) (hi : i < a.length) :
    a.getD i 0 = (s.getD (i + 1) 0 - s.getD i 0) / (6 * (hk pts).getD i 0) ∧
    b.getD i 0 = s.getD i 0 / 2 ∧
    c.getD i 0 = (dyk pts).getD i 0 / (hk pts).getD i 0 -
      (2 * (hk pts).getD i 0 * s.getD i 0 + (hk pts).getD i 0 * s.getD (i + 1) 0) / 6 ∧
    d.getD i 0 = (ycoords pts).getD i 0 := by
  rw [spline_coeffs, hs, Option.map_some'] at hc
  simp only [coeffsFrom, Option.some.injEq, Prod.mk.injEq] at hc
  obtain ⟨ha, hb, hcc, hd⟩ := hc
  subst ha hb hcc hd
  simp only [List.length_map, List.length_range] at hi
  have hn : i + 1 < pts.length := by
    have := hk_length pts
    omega
  refine ⟨?_, ?_, ?_, ?_⟩
  · rw [getD_map_range _ _ _ _ hi]
  · rw [getD_map_range _ _ _ _ hi]
  · rw [getD_map_range _ _ _ _ hi, dyk_getD pts i hn]
  · rw [getD_map_range _ _ _ _ hi]

/-- Witness for C2 at the four-point example, segment 0. -/
theorem spline_coeff_formulas_witness :
    (spline_sigmas demoPts 200).isSome = true ∧
    (spline_coeffs demoPts 200).isSome = true ∧
    ((spline_coeffs demoPts 200).getD ([], [], [], [])).2.2.2.getD 0 0 =
      (ycoords demoPts).getD 0 0 := by
  have h1 : (spline_sigmas demoPts 200).isSome = true := by with_unfolding_all decide
  obtain ⟨s, hs⟩ := Option.isSome_iff_exists.mp h1
  have h2 : spline_coeffs demoPts 200 = some (coeffsFrom demoPts s) := by
    rw [spline_coeffs, hs, Option.map_some']
  have hlen : 0 < (coeffsFrom demoPts s).1.length := by
    rw [spline_coeffs_a_length demoPts 200 (coeffsFrom demoPts s).1
      (coeffsFrom demoPts s).2.1 (coeffsFrom demoPts s).2.2.1
      (coeffsFrom demoPts s).2.2.2 (by rw [h2])]
    decide
  have h4 := spline_coeff_formulas demoPts 200 s (coeffsFrom demoPts s).1
    (coeffsFrom demoPts s).2.1 (coeffsFrom demoPts s).2.2.1
    (coeffsFrom demoPts s).2.2.2 hs (by rw [h2]) 0 hlen
  rw [h2]
  exact ⟨h1, rfl, h4.2.2.2⟩

/-- Claim C6: each produced segment polynomial interpolates its left knot
exactly, `f_i(x_i) = y_i`, since `d[i] = y[i]` and the `(x - x_i)` terms
vanish at `x = x_i`. -/
theorem segment_interpolates_left_knot (pts : List Point) (fuel : ℕ)
    (a b c d : List ℚ) (hc : spline_coeffs pts fuel = some (a, b, c, d))
    (i : ℕ) (hi : i < a.length) :
    evalSegment (a.getD i 0) (b.getD i 0) (c.getD i 0) (d.getD i 0)
      ((xcoords pts).getD i 0) ((xcoords pts).getD i 0) = (ycoords pts).getD i 0 := by
  simp only [spline_coeffs, Option.map_eq_some'] at hc
  obtain ⟨s, _, hc⟩ := hc
  simp only [coeffsFrom, Prod.mk.injEq] at hc
  obtain ⟨ha, hb, hcc, hd⟩ := hc
  subst ha hb hcc hd
  simp only [List.length_map, List.length_range] at hi
  simp only [evalSegment, sub_self]
  rw [getD_map_range ((hk pts).length - 1) (fun j => (ycoords pts).getD j 0) 0 i hi]
  ring

/-- Witness for C6 at the four-point example, segment 0. -/
theorem segment_interpolates_left_knot_witness :
    (spline_coeffs demoPts 200).isSome = true ∧
    evalSegment (((spline_coeffs demoPts 200).getD ([], [], [], [])).1.getD 0 0)
      (((spline_coeffs demoPts 200).getD ([], [], [], [])).2.1.getD 0 0)
      (((spline_coeffs demoPts 200).getD ([], [], [], [])).2.2.1.getD 0 0)
      (((spline_coeffs demoPts 200).getD ([], [], [], [])).2.2.2.getD 0 0)
      ((xcoords demoPts).getD 0 0) ((xcoords demoPts).getD 0 0) =
      (ycoords demoPts).getD 0 0 := by
  have h1 : (spline_coeffs demoPts 200).isSome = true := by with_unfolding_all decide
  obtain ⟨t, ht⟩ := Option.isSome_iff_exists.mp h1
  have ht' : spline_coeffs demoPts 200 = some (t.1, t.2.1, t.2.2.1, t.2.2.2) := ht
  have hlen : 0 < t.1.length := by
    rw [spline_coeffs_a_length demoPts 200 t.1 t.2.1 t.2.2.1 t.2.2.2 ht']
    decide
  have h4 := segment_interpolates_left_knot demoPts 200 t.1 t.2.1 t.2.2.1 t.2.2.2
    ht' 0 hlen
  rw [ht]
  exact ⟨rfl, h4⟩

/-- Claim C1 (code bug): at the specification's own four-point example the
call succeeds, but the returned coefficient arrays have length
`n - 2 = 2` instead of the required `n - 1 = 3`: the loop
`for i in range(k-1)` with `k = n-1` drops the last segment. -/
theorem trazador_drops_last_segment :
    demoPts.length = 4 ∧
    trazador_cubico (PyValue.pyList demoPts) 200 =
      Except.ok (spline_coeffs demoPts 200) ∧
    (spline_coeffs demoPts 200).isSome = true ∧
    ((spline_coeffs demoPts 200).getD ([], [], [], [])).1.length = 2 ∧
    ((spline_coeffs demoPts 200).getD ([], [], [], [])).2.2.2.length = 2 := by
  refine ⟨rfl, rfl, ?_, ?_, ?_⟩ <;> with_unfolding_all decide

/-- Claim C8 (code bug): a two-point input is rejected, but the message of
the raised error states a greater-than-1 length constraint, which the
rejected input already satisfies; the violated check is `len(points) < 4`. -/
theorem trazador_short_input_message_misstates_bound :
    trazador_cubico (PyValue.pyList [((0 : ℚ), (0 : ℚ)), (1, 1)]) 0 =
      Except.error msgTooShort ∧
    msgTooShort = "The length of 'points' must be greater than 1" ∧
    1 < ([((0 : ℚ), (0 : ℚ)), (1, 1)] : List Point).length ∧
    ([((0 : ℚ), (0 : ℚ)), (1, 1)] : List Point).length < 4 :=
  ⟨rfl, rfl, by decide, by decide⟩

/-- Claim C10: any input that is not a Python `list` or `tuple` — including
an ordered container of valid points such as a numpy array — is rejected
with the invalid-input error, never computed on. -/
theorem trazador_rejects_non_list_tuple (pts : List Point) (fuel : ℕ) :
    trazador_cubico (PyValue.npArray pts) fuel = Except.error msgNotSeq ∧
    trazador_cubico PyValue.pyOther fuel = Except.error msgNotSeq :=
  ⟨rfl, rfl⟩

theorem spline_system_row (pts : List Point) (r : ℕ) (hr : r < pts.length - 2) :
    (spline_system pts).1.getD r [] =
      (if r + 1 = 1 then
        [2 * ((hk pts).getD r 0 + (hk pts).getD (r + 1) 0), (hk pts).getD (r + 1) 0] ++
          List.replicate ((hk pts).length - 3) 0
      else if r + 1 = (hk pts).length - 1 then
        List.replicate ((hk pts).length - 3) 0 ++
          [(hk pts).getD r 0, 2 * ((hk pts).getD r 0 + (hk pts).getD (r + 1) 0)]
      else
        List.replicate (r + 1 - 2) 0 ++
          [(hk pts).getD r 0, 2 * ((hk pts).getD r 0 + (hk pts).getD (r + 1) 0),
            (hk pts).getD (r + 1) 0] ++
          List.replicate ((hk pts).length - 2 - (r + 1)) 0) := by
  simp only [spline_system]
  rw [getD_map_range_one _ _ _ r (by rw [hk_length]; omega)]
  simp only [Nat.add_sub_cancel]

/-- Claim C3: for every point sequence of `n ≥ 4` points the assembled
system is `(n-2) × (n-2)` and tridiagonal, with diagonal `2(h[r] + h[r+1])`
for the unknown `sigma[r+1]`, off-diagonal entries `h[r]` (left) and
`h[r+1]` (right), the first and last rows carrying only two nonzeros, and
right-hand side `6(dy[r+1]/h[r+1] - dy[r]/h[r])`; the sigma vector is the
solver's answer from the zero start vector, padded with the boundary zeros. -/
theorem spline_system_tridiagonal (pts : List Point) (fuel : ℕ)
    (hn : 4 ≤ pts.length) :
    (spline_system pts).1.length = pts.length - 2 ∧
    (spline_system pts).2.length = pts.length - 2 ∧
    (∀ r, r < pts.length - 2 →
      ((spline_system pts).1.getD r []).length = pts.length - 2) ∧
    (∀ r c, r < pts.length - 2 → c < pts.length - 2 →
      ((spline_system pts).1.getD r []).getD c 0 =
        if c = r then 2 * ((hk pts).getD r 0 + (hk pts).getD (r + 1) 0)
        else if c + 1 = r then (hk pts).getD r 0
        else if c = r + 1 then (hk pts).getD (r + 1) 0
        else 0) ∧
    (∀ r, r < pts.length - 2 →
      (spline_system pts).2.getD r 0 =
        6 * ((dyk pts).getD (r + 1) 0 / (hk pts).getD (r + 1) 0 -
          (dyk pts).getD r 0 / (hk pts).getD r 0)) ∧
    spline_sigmas pts fuel =
      (relajacion (spline_system pts).1 (spline_system pts).2
        (List.replicate ((spline_system pts).2.length) 0) omega0 tol0 fuel).map
        (fun sol => 0 :: (sol ++ [0])) := by
  have hkl : (hk pts).length = pts.length - 1 := hk_length pts
  have hk3 : 3 ≤ (hk pts).length := by omega
  refine ⟨spline_system_rows pts, spline_system_rhs_length pts, ?_, ?_, ?_, rfl⟩
  · intro r hr
    rw [spline_system_row pts r hr]
    split_ifs with h1 h2 <;>
      simp only [List.length_append, List.length_replicate, List.length_cons,
        List.length_nil] <;> omega
  · intro r c hr hc
    rw [spline_system_row pts r hr]
    by_cases h1 : r + 1 = 1
    · rw [if_pos h1]
      have hr0 : r = 0 := by omega
      subst hr0
      by_cases hc0 : c = 0
      · subst hc0
        rw [List.getD_append _ _ _ _
          (by simp only [List.length_cons, List.length_nil]; omega)]
        rw [if_pos rfl]
        rfl
      · by_cases hc1 : c = 1
        · subst hc1
          rw [List.getD_append _ _ _ _
            (by simp only [List.length_cons, List.length_nil]; omega)]
          rw [if_neg (by omega), if_neg (by omega), if_pos rfl]
          rfl
        · rw [List.getD_append_right _ _ _ _
            (by simp only [List.length_cons, List.length_nil]; omega)]
          rw [getD_replicate_zero, if_neg hc0, if_neg (by omega), if_neg hc1]
    · rw [if_neg h1]
      by_cases h2 : r + 1 = (hk pts).length - 1
      · rw [if_pos h2]
        by_cases hcs : c < (hk pts).length - 3
        · rw [List.getD_append _ _ _ _ (by simp only [List.length_replicate]; omega)]
          rw [getD_replicate_zero, if_neg (by omega), if_neg (by omega),
            if_neg (by omega)]
        · by_cases hcm : c = (hk pts).length - 3
          · rw [List.getD_append_right _ _ _ _
              (by simp only [List.length_replicate]; omega)]
            simp only [List.length_replicate]
            rw [show c - ((hk pts).length - 3) = 0 by omega, List.getD_cons_zero,
              if_neg (by omega), if_pos (by omega)]
          · have hce : c = (hk pts).length - 2 := by omega
            rw [List.getD_append_right _ _ _ _
              (by simp only [List.length_replicate]; omega)]
            simp only [List.length_replicate]
            rw [show c - ((hk pts).length - 3) = 1 by omega, List.getD_cons_succ,
              List.getD_cons_zero, if_pos (by omega)]
      · rw [if_neg h2]
        have hrlo : 1 ≤ r := by omega
        have hrhi : r + 1 ≤ (hk pts).length - 2 := by omega
        by_cases hcs : c < r + 1 - 2
        · rw [List.getD_append _ _ _ _
            (by simp only [List.length_append, List.length_replicate,
              List.length_cons, List.length_nil]; omega)]
          rw [List.getD_append _ _ _ _ (by simp only [List.length_replicate]; omega)]
          rw [getD_replicate_zero, if_neg (by omega), if_neg (by omega),
            if_neg (by omega)]
        · by_cases hm2 : r + 2 ≤ c
          · rw [List.getD_append_right _ _ _ _
              (by simp only [List.length_append, List.length_replicate,
                List.length_cons, List.length_nil]; omega)]
            rw [getD_replicate_zero, if_neg (by omega), if_neg (by omega),
              if_neg (by omega)]
          · rw [List.getD_append _ _ _ _
              (by simp only [List.length_append, List.length_replicate,
                List.length_cons, List.length_nil]; omega)]
            rw [List.getD_append_right _ _ _ _
              (by simp only [List.length_replicate]; omega)]
            simp only [List.length_replicate]
            by_cases hm0 : c = r - 1
            · rw [show c - (r + 1 - 2) = 0 by omega, List.getD_cons_zero,
                if_neg (by omega), if_pos (by omega)]
            · by_cases hm1 : c = r
              · rw [show c - (r + 1 - 2) = 1 by omega, List.getD_cons_succ,
                  List.getD_cons_zero, if_pos (by omega)]
              · rw [show c - (r + 1 - 2) = 2 by omega, List.getD_cons_succ,
                  List.getD_cons_succ, List.getD_cons_zero, if_neg (by omega),
                  if_neg (by omega), if_pos (by omega)]
  · intro r hr
    simp only [spline_system]
    rw [getD_map_range_one _ _ _ r (by rw [hk_length]; omega)]
    simp only [Nat.add_sub_cancel]

/-- Witness for C3 at the four-point example: the system is `2 × 2` and its
top-left entry is the diagonal value `2(h[0] + h[1])`. -/
theorem spline_system_tridiagonal_witness :
    (spline_system demoPts).1.length = demoPts.length - 2 ∧
    ((spline_system demoPts).1.getD 0 []).getD 0 0 =
      2 * ((hk demoPts).getD 0 0 + (hk demoPts).getD 1 0) := by
  have h := spline_system_tridiagonal demoPts 0 (by decide)
  refine ⟨h.1, ?_⟩
  have h4 := h.2.2.2.1 0 0 (by decide) (by decide)
  rw [h4, if_pos rfl]

theorem sum_ite_eq_sum_filter (l : List ℕ) (i : ℕ) (f : ℕ → ℚ) :
    ((l.filter (fun j => j ≠ i)).map f).sum =
      (l.map (fun j => if j = i then 0 else f j)).sum := by
  induction l with
  | nil => rfl
  | cons a l ih =>
    simp only [decide_not] at ih ⊢
    by_cases h : a = i
    · subst h
      simp [List.filter_cons, ih]
    · simp [List.filter_cons, h, ih]

theorem sweepStep_eq_modelUpdate (A : List (List ℚ)) (b : List ℚ) (om : ℚ)
    (hsq : ∀ row ∈ A, row.length = A.length) (x : List ℚ) (i : ℕ) :
    sweepStep A b om x i = modelUpdate A b om x i := by
  cases A with
  | nil => simp [sweepStep, modelUpdate, sorSigma]
  | cons r0 A2 =>
    have h0 : r0.length = (r0 :: A2).length := hsq r0 (by simp)
    rw [sweepStep, modelUpdate, sorSigma, List.headD_cons, h0,
      sum_ite_eq_sum_filter]

theorem modelSweepGo_eq_foldl (A : List (List ℚ)) (b : List ℚ) (om : ℚ) :
    ∀ (steps i : ℕ) (x : List ℚ),
      modelSweepGo A b om steps i x =
        (List.range' i steps).foldl (modelUpdate A b om) x := by
  intro steps
  induction steps with
  | zero => intro i x; rfl
  | succ n ih =>
    intro i x
    simp only [modelSweepGo]
    rw [List.range'_succ, List.foldl_cons, ih]

theorem sweep_eq_modelSweep (A : List (List ℚ)) (b : List ℚ) (om : ℚ)
    (hsq : ∀ row ∈ A, row.length = A.length) (x : List ℚ) :
    sweep A b om x = modelSweep A b om x := by
  rw [sweep, modelSweep, modelSweepGo_eq_foldl, ← List.range_eq_range']
  generalize List.range A.length = l
  induction l generalizing x with
  | nil => rfl
  | cons j l ih =>
    rw [List.foldl_cons, List.foldl_cons, sweepStep_eq_modelUpdate A b om hsq, ih]

/-- Claim C4, amended: the solver equals the check-first model — it tests
the residual before each sweep, including once before the first sweep, and
returns as soon as the residual is within tolerance; each sweep updates the
rows in increasing order with the current partially updated values. -/
theorem relajacion_eq_check_first_model (A : List (List ℚ)) (b x0 : List ℚ)
    (om tol : ℚ) (fuel : ℕ) (hsq : ∀ row ∈ A, row.length = A.length) :
    relajacion A b x0 om tol fuel = relajacionModel A b x0 om tol fuel := by
  rw [relajacion, relajacionModel]
  induction fuel generalizing x0 with
  | zero => rfl
  | succ n ih =>
    simp only [relajacionGo, relajacionModelGo]
    rw [sweep_eq_modelSweep A b om hsq]
    by_cases h : resSq A b x0 ≤ tol ^ 2
    · rw [if_pos h, if_pos h]
    · rw [if_neg h, if_neg h, ih]

/-- Witness for the amended C4 on a concrete square system. -/
theorem relajacion_eq_check_first_model_witness :
    relajacion [[2]] [1] [0] (1 / 2) 1 3 = relajacionModel [[2]] [1] [0] (1 / 2) 1 3 :=
  relajacion_eq_check_first_model [[2]] [1] [0] (1 / 2) 1 3 (by decide)

/-- Counterexample to C4 as stated: with `A = [[2]]`, `b = [1]`, `x0 = [1]`,
`omega = 1/2`, `tol = 1`, the residual of `x0` is already within tolerance,
so the code returns `x0 = [1]` without performing any sweep; a procedure
that performs a full sweep over all rows before each residual check (the
claim's wording, modelled by `relajacionClaimed`) returns `[3/4]` instead. -/
theorem relajacion_checks_residual_before_first_sweep :
    relajacion [[2]] [1] [1] (1 / 2) 1 1 = some [1] ∧
    relajacionClaimed [[2]] [1] [1] (1 / 2) 1 1 = some [3 / 4] ∧
    ¬((some [1] : Option (List ℚ)) = some [3 / 4]) := by
  refine ⟨?_, ?_, ?_⟩ <;> with_unfolding_all decide

/-! ### Heap-level facts for the solver -/

theorem relajacionHeapGo_frame (A : List (List ℚ)) (b : List ℚ) (om tol : ℚ)
    (xaddr j : ℕ) (hne : j ≠ xaddr) :
    ∀ (fuel : ℕ) (hp hp2 : List (List ℚ)),
      relajacionHeapGo A b om tol xaddr fuel hp = some hp2 →
      hp2.getD j [] = hp.getD j [] := by
  intro fuel
  induction fuel with
  | zero =>
    intro hp hp2 h
    simp only [relajacionHeapGo] at h
    split at h <;> simp_all
  | succ n ih =>
    intro hp hp2 h
    simp only [relajacionHeapGo] at h
    split at h
    · simp_all
    · rw [ih _ _ h, List.getD_eq_getElem?_getD, List.getElem?_set_ne (by omega),
        ← List.getD_eq_getElem?_getD]

theorem relajacionHeapGo_tracks (A : List (List ℚ)) (b : List ℚ) (om tol : ℚ)
    (xaddr : ℕ) :
    ∀ (fuel : ℕ) (hp hp2 : List (List ℚ)), xaddr < hp.length →
      relajacionHeapGo A b om tol xaddr fuel hp = some hp2 →
      relajacionGo A b om tol fuel (hp.getD xaddr []) = some (hp2.getD xaddr []) := by
  intro fuel
  induction fuel with
  | zero =>
    intro hp hp2 hx h
    simp only [relajacionHeapGo] at h
    simp only [relajacionGo]
    split at h
    · rename_i hres
      cases h
      rw [if_pos hres]
    · cases h
  | succ n ih =>
    intro hp hp2 hx h
    simp only [relajacionHeapGo] at h
    simp only [relajacionGo]
    split at h
    · rename_i hres
      cases h
      rw [if_pos hres]
    · rename_i hres
      rw [if_neg hres]
      have hset : (hp.set xaddr (sweep A b om (hp.getD xaddr []))).getD xaddr [] =
          sweep A b om (hp.getD xaddr []) := by
        rw [List.getD_eq_getElem?_getD, List.getElem?_set_self hx]
        rfl
      have h2 := ih _ _ (by rw [List.length_set]; exact hx) h
      rw [hset] at h2
      exact h2

/-- Claim C9: the solver never mutates the caller's `x0`.  In the
reference-semantics embedding, the array at the caller's address holds its
original values when the call returns, and the solver's answer is computed
on the fresh copy. -/
theorem relajacion_preserves_caller_x0 (A : List (List ℚ)) (b : List ℚ)
    (om tol : ℚ) (fuel : ℕ) (hp hp2 : List (List ℚ)) (x0addr xaddr : ℕ)
    (haddr : x0addr < hp.length)
    (hrun : relajacionHeap A b om tol fuel hp x0addr = some (hp2, xaddr)) :
    hp2.getD x0addr [] = hp.getD x0addr [] ∧
    relajacion A b (hp.getD x0addr []) om tol fuel = some (hp2.getD xaddr []) := by
  simp only [relajacionHeap, Option.map_eq_some'] at hrun
  obtain ⟨hp3, hgo, heq⟩ := hrun
  obtain ⟨h1, h2⟩ : hp3 = hp2 ∧ hp.length = xaddr :=
    ⟨congrArg Prod.fst heq, congrArg Prod.snd heq⟩
  subst h1
  subst h2
  have hcopy : (hp ++ [hp.getD x0addr []]).getD hp.length [] = hp.getD x0addr [] := by
    rw [List.getD_append_right _ _ _ _ (le_refl _), Nat.sub_self]
    rfl
  have hx0 : (hp ++ [hp.getD x0addr []]).getD x0addr [] = hp.getD x0addr [] :=
    List.getD_append _ _ _ _ haddr
  constructor
  · rw [relajacionHeapGo_frame A b om tol hp.length x0addr (by omega) fuel _ _ hgo,
      hx0]
  · have h3 := relajacionHeapGo_tracks A b om tol hp.length fuel _ _
      (by rw [List.length_append]; simp) hgo
    rw [hcopy] at h3
    exact h3

/-- Witness for C9: a one-array heap, a solver call that returns at once. -/
theorem relajacion_preserves_caller_x0_witness :
    ([[(5 : ℚ)], [5]] : List (List ℚ)).getD 0 [] =
      ([[(5 : ℚ)]] : List (List ℚ)).getD 0 [] ∧
    relajacion [[1]] [5] (([[(5 : ℚ)]] : List (List ℚ)).getD 0 []) (1 / 2) 1 0 =
      some (([[(5 : ℚ)], [5]] : List (List ℚ)).getD 1 []) :=
  relajacion_preserves_caller_x0 [[1]] [5] (1 / 2) 1 0 [[(5 : ℚ)]]
    [[(5 : ℚ)], [5]] 0 1 (by decide) (by with_unfolding_all decide)

/-! ### Convergence of the solver on the 2-by-2 system of a 4-point spline -/

theorem sweep_two (d1 d2 u B1 B2 om p q : ℚ) :
    sweep [[d1, u], [u, d2]] [B1, B2] om [p, q] =
      [(1 - om) * p + om / d1 * (B1 - u * q),
       (1 - om) * q + om / d2 * (B2 - u * ((1 - om) * p + om / d1 * (B1 - u * q)))] := by
  rw [sweep, show ([[d1, u], [u, d2]] : List (List ℚ)).length = 2 from rfl,
    show List.range 2 = [0, 1] from rfl, List.foldl_cons, List.foldl_cons,
    List.foldl_nil]
  simp [sweepStep, sorSigma, show List.range 2 = [0, 1] from rfl]

theorem resSq_two (d1 d2 u B1 B2 p q : ℚ) :
    resSq [[d1, u], [u, d2]] [B1, B2] [p, q] =
      (d1 * p + u * q - B1) ^ 2 + (u * p + d2 * q - B2) ^ 2 := by
  simp [resSq, mulVec]

theorem sor2_solution (d1 d2 u B1 B2 : ℚ) (hd1 : 0 < d1) (hd2 : 0 < d2)
    (hu : 0 ≤ u) (hud1 : 2 * u ≤ d1) (hud2 : 2 * u ≤ d2) :
    ∃ ps qs : ℚ, d1 * ps + u * qs = B1 ∧ u * ps + d2 * qs = B2 := by
  have hdet : 0 < d1 * d2 - u * u := by nlinarith
  refine ⟨(d2 * B1 - u * B2) / (d1 * d2 - u * u),
    (d1 * B2 - u * B1) / (d1 * d2 - u * u), ?_, ?_⟩ <;>
    · field_simp
      ring

theorem sor2_step_bound (d1 d2 u B1 B2 p q ps qs c : ℚ)
    (hd1 : 0 < d1) (hd2 : 0 < d2) (hu : 0 ≤ u) (hud1 : 2 * u ≤ d1)
    (hud2 : 2 * u ≤ d2) (hps : d1 * ps + u * qs = B1) (hqs : u * ps + d2 * qs = B2)
    (he1 : |p - ps| ≤ c) (he2 : |q - qs| ≤ c) :
    |((1 - omega0) * p + omega0 / d1 * (B1 - u * q)) - ps| ≤ 3 / 4 * c ∧
    |((1 - omega0) * q + omega0 / d2 *
        (B2 - u * ((1 - omega0) * p + omega0 / d1 * (B1 - u * q)))) - qs| ≤
      3 / 4 * c := by
  have hc0 : 0 ≤ c := le_trans (abs_nonneg _) he1
  have hB1 : B1 = d1 * ps + u * qs := hps.symm
  have hB2 : B2 = u * ps + d2 * qs := hqs.symm
  subst hB1
  subst hB2
  have hr1 : 0 ≤ u / (2 * d1) := div_nonneg hu (by linarith)
  have hr1' : u / (2 * d1) ≤ 1 / 4 := by
    rw [div_le_div_iff (by linarith) (by norm_num)]
    linarith
  have hr2 : 0 ≤ u / (2 * d2) := div_nonneg hu (by linarith)
  have hr2' : u / (2 * d2) ≤ 1 / 4 := by
    rw [div_le_div_iff (by linarith) (by norm_num)]
    linarith
  have key1 : (1 - omega0) * p + omega0 / d1 * (d1 * ps + u * qs - u * q) - ps =
      1 / 2 * (p - ps) - u / (2 * d1) * (q - qs) := by
    rw [omega0]
    field_simp
    ring
  have hb1 : |(1 - omega0) * p + omega0 / d1 * (d1 * ps + u * qs - u * q) - ps| ≤
      3 / 4 * c := by
    rw [key1]
    calc |1 / 2 * (p - ps) - u / (2 * d1) * (q - qs)|
        ≤ |1 / 2 * (p - ps)| + |u / (2 * d1) * (q - qs)| := abs_sub _ _
      _ = 1 / 2 * |p - ps| + u / (2 * d1) * |q - qs| := by
          rw [abs_mul, abs_mul, abs_of_nonneg hr1]
          norm_num
      _ ≤ 1 / 2 * c + 1 / 4 * c := by
          have g2 : u / (2 * d1) * |q - qs| ≤ 1 / 4 * c :=
            mul_le_mul hr1' he2 (abs_nonneg _) (by norm_num)
          linarith
      _ = 3 / 4 * c := by ring
  refine ⟨hb1, ?_⟩
  have key2 : (1 - omega0) * q + omega0 / d2 *
      (u * ps + d2 * qs -
        u * ((1 - omega0) * p + omega0 / d1 * (d1 * ps + u * qs - u * q))) - qs =
      1 / 2 * (q - qs) - u / (2 * d2) *
        ((1 - omega0) * p + omega0 / d1 * (d1 * ps + u * qs - u * q) - ps) := by
    rw [omega0]
    field_simp
    ring
  rw [key2]
  calc |1 / 2 * (q - qs) - u / (2 * d2) *
        ((1 - omega0) * p + omega0 / d1 * (d1 * ps + u * qs - u * q) - ps)|
      ≤ |1 / 2 * (q - qs)| + |u / (2 * d2) *
        ((1 - omega0) * p + omega0 / d1 * (d1 * ps + u * qs - u * q) - ps)| :=
        abs_sub _ _
    _ = 1 / 2 * |q - qs| + u / (2 * d2) *
        |(1 - omega0) * p + omega0 / d1 * (d1 * ps + u * qs - u * q) - ps| := by
        rw [abs_mul, abs_mul, abs_of_nonneg hr2]
        norm_num
    _ ≤ 1 / 2 * c + 1 / 4 * (3 / 4 * c) := by
        have g2 : u / (2 * d2) *
            |(1 - omega0) * p + omega0 / d1 * (d1 * ps + u * qs - u * q) - ps| ≤
            1 / 4 * (3 / 4 * c) :=
          mul_le_mul hr2' hb1 (abs_nonneg _) (by norm_num)
        linarith
    _ ≤ 3 / 4 * c := by linarith

theorem sor2_iterate_bound (d1 d2 u B1 B2 ps qs : ℚ)
    (hd1 : 0 < d1) (hd2 : 0 < d2) (hu : 0 ≤ u) (hud1 : 2 * u ≤ d1)
    (hud2 : 2 * u ≤ d2) (hps : d1 * ps + u * qs = B1) (hqs : u * ps + d2 * qs = B2) :
    ∀ k : ℕ, ∃ p q : ℚ,
      (fun x => sweep [[d1, u], [u, d2]] [B1, B2] omega0 x)^[k] [0, 0] = [p, q] ∧
      |p - ps| ≤ (3 / 4) ^ k * max |ps| |qs| ∧
      |q - qs| ≤ (3 / 4) ^ k * max |ps| |qs| := by
  intro k
  induction k with
  | zero =>
    refine ⟨0, 0, rfl, ?_, ?_⟩
    · rw [pow_zero, one_mul, zero_sub, abs_neg]
      exact le_max_left _ _
    · rw [pow_zero, one_mul, zero_sub, abs_neg]
      exact le_max_right _ _
  | succ n ih =>
    obtain ⟨p, q, hx, h1, h2⟩ := ih
    have hstep := sor2_step_bound d1 d2 u B1 B2 p q ps qs
      ((3 / 4) ^ n * max |ps| |qs|) hd1 hd2 hu hud1 hud2 hps hqs h1 h2
    rw [Function.iterate_succ_apply', hx, sweep_two]
    exact ⟨_, _, rfl,
      le_trans hstep.1 (le_of_eq (by rw [pow_succ]; ring)),
      le_trans hstep.2 (le_of_eq (by rw [pow_succ]; ring))⟩

theorem sor2_resSq_bound (d1 d2 u B1 B2 p q ps qs c : ℚ)
    (hd1 : 0 < d1) (hd2 : 0 < d2) (hu : 0 ≤ u)
    (hps : d1 * ps + u * qs = B1) (hqs : u * ps + d2 * qs = B2)
    (he1 : |p - ps| ≤ c) (he2 : |q - qs| ≤ c) :
    resSq [[d1, u], [u, d2]] [B1, B2] [p, q] ≤
      ((d1 + u) ^ 2 + (u + d2) ^ 2) * c ^ 2 := by
  have hB1 : B1 = d1 * ps + u * qs := hps.symm
  have hB2 : B2 = u * ps + d2 * qs := hqs.symm
  subst hB1
  subst hB2
  rw [resSq_two, show d1 * p + u * q - (d1 * ps + u * qs) =
      d1 * (p - ps) + u * (q - qs) by ring,
    show u * p + d2 * q - (u * ps + d2 * qs) = u * (p - ps) + d2 * (q - qs) by ring]
  have h1 : |d1 * (p - ps) + u * (q - qs)| ≤ (d1 + u) * c := by
    calc |d1 * (p - ps) + u * (q - qs)|
        ≤ |d1 * (p - ps)| + |u * (q - qs)| := abs_add _ _
      _ = d1 * |p - ps| + u * |q - qs| := by
          rw [abs_mul, abs_mul, abs_of_nonneg hd1.le, abs_of_nonneg hu]
      _ ≤ d1 * c + u * c := by
          have g1 := mul_le_mul_of_nonneg_left he1 hd1.le
          have g2 := mul_le_mul_of_nonneg_left he2 hu
          linarith
      _ = (d1 + u) * c := by ring
  have h2 : |u * (p - ps) + d2 * (q - qs)| ≤ (u + d2) * c := by
    calc |u * (p - ps) + d2 * (q - qs)|
        ≤ |u * (p - ps)| + |d2 * (q - qs)| := abs_add _ _
      _ = u * |p - ps| + d2 * |q - qs| := by
          rw [abs_mul, abs_mul, abs_of_nonneg hu, abs_of_nonneg hd2.le]
      _ ≤ u * c + d2 * c := by
          have g1 := mul_le_mul_of_nonneg_left he1 hu
          have g2 := mul_le_mul_of_nonneg_left he2 hd2.le
          linarith
      _ = (u + d2) * c := by ring
  have g1 : (d1 * (p - ps) + u * (q - qs)) ^ 2 ≤ ((d1 + u) * c) ^ 2 := by
    rw [← sq_abs (d1 * (p - ps) + u * (q - qs))]
    exact pow_le_pow_left (abs_nonneg _) h1 2
  have g2 : (u * (p - ps) + d2 * (q - qs)) ^ 2 ≤ ((u + d2) * c) ^ 2 := by
    rw [← sq_abs (u * (p - ps) + d2 * (q - qs))]
    exact pow_le_pow_left (abs_nonneg _) h2 2
  calc (d1 * (p - ps) + u * (q - qs)) ^ 2 + (u * (p - ps) + d2 * (q - qs)) ^ 2
      ≤ ((d1 + u) * c) ^ 2 + ((u + d2) * c) ^ 2 := by linarith
    _ = ((d1 + u) ^ 2 + (u + d2) ^ 2) * c ^ 2 := by ring

theorem relajacionGo_succeeds (A : List (List ℚ)) (b : List ℚ) (om tol : ℚ) :
    ∀ (k : ℕ) (x : List ℚ),
      resSq A b ((fun v => sweep A b om v)^[k] x) ≤ tol ^ 2 →
      ∀ fuel, k ≤ fuel → ∃ y, relajacionGo A b om tol fuel x = some y := by
  intro k
  induction k with
  | zero =>
    intro x hres fuel _
    simp only [Function.iterate_zero, id_eq] at hres
    cases fuel with
    | zero => exact ⟨x, by simp only [relajacionGo]; rw [if_pos hres]⟩
    | succ n => exact ⟨x, by simp only [relajacionGo]; rw [if_pos hres]⟩
  | succ n ih =>
    intro x hres fuel hle
    cases fuel with
    | zero => omega
    | succ f =>
      by_cases h : resSq A b x ≤ tol ^ 2
      · exact ⟨x, by simp only [relajacionGo]; rw [if_pos h]⟩
      · have hres' : resSq A b ((fun v => sweep A b om v)^[n] (sweep A b om x)) ≤
            tol ^ 2 := by
          rw [← Function.iterate_succ_apply]
          exact hres
        obtain ⟨y, hy⟩ := ih (sweep A b om x) hres' f (by omega)
        exact ⟨y, by simp only [relajacionGo]; rw [if_neg h]; exact hy⟩

theorem sor2_fuel_exists (d1 d2 u B1 B2 : ℚ) (hd1 : 0 < d1) (hd2 : 0 < d2)
    (hu : 0 ≤ u) (hud1 : 2 * u ≤ d1) (hud2 : 2 * u ≤ d2) :
    ∃ (fuel : ℕ) (y : List ℚ),
      relajacionGo [[d1, u], [u, d2]] [B1, B2] omega0 tol0 fuel [0, 0] = some y := by
  obtain ⟨ps, qs, hps, hqs⟩ := sor2_solution d1 d2 u B1 B2 hd1 hd2 hu hud1 hud2
  have hM0 : 0 ≤ max |ps| |qs| := le_trans (abs_nonneg ps) (le_max_left _ _)
  have hC0 : (0 : ℚ) ≤ (d1 + u) ^ 2 + (u + d2) ^ 2 := by positivity
  have hK : (0 : ℚ) < ((d1 + u) ^ 2 + (u + d2) ^ 2) * (max |ps| |qs|) ^ 2 + 1 := by
    positivity
  have htol : (0 : ℚ) <
      tol0 ^ 2 / (((d1 + u) ^ 2 + (u + d2) ^ 2) * (max |ps| |qs|) ^ 2 + 1) := by
    apply div_pos _ hK
    rw [tol0]
    norm_num
  obtain ⟨k, hk⟩ := exists_pow_lt_of_lt_one htol (show (9 / 16 : ℚ) < 1 by norm_num)
  obtain ⟨p, q, hx, h1, h2⟩ := sor2_iterate_bound d1 d2 u B1 B2 ps qs
    hd1 hd2 hu hud1 hud2 hps hqs k
  have hres : resSq [[d1, u], [u, d2]] [B1, B2]
      ((fun v => sweep [[d1, u], [u, d2]] [B1, B2] omega0 v)^[k] [0, 0]) ≤
      tol0 ^ 2 := by
    rw [hx]
    have hb := sor2_resSq_bound d1 d2 u B1 B2 p q ps qs
      ((3 / 4) ^ k * max |ps| |qs|) hd1 hd2 hu hps hqs h1 h2
    have heq : ((3 / 4 : ℚ) ^ k * max |ps| |qs|) ^ 2 =
        (9 / 16) ^ k * (max |ps| |qs|) ^ 2 := by
      rw [mul_pow, pow_right_comm]
      norm_num
    have hpk : (0 : ℚ) ≤ (9 / 16) ^ k := by positivity
    calc resSq [[d1, u], [u, d2]] [B1, B2] [p, q]
        ≤ ((d1 + u) ^ 2 + (u + d2) ^ 2) * ((3 / 4) ^ k * max |ps| |qs|) ^ 2 := hb
      _ = ((d1 + u) ^ 2 + (u + d2) ^ 2) * (max |ps| |qs|) ^ 2 * (9 / 16) ^ k := by
          rw [heq]
          ring
      _ ≤ (((d1 + u) ^ 2 + (u + d2) ^ 2) * (max |ps| |qs|) ^ 2 + 1) * (9 / 16) ^ k := by
          nlinarith
      _ ≤ (((d1 + u) ^ 2 + (u + d2) ^ 2) * (max |ps| |qs|) ^ 2 + 1) *
            (tol0 ^ 2 / (((d1 + u) ^ 2 + (u + d2) ^ 2) * (max |ps| |qs|) ^ 2 + 1)) :=
          mul_le_mul_of_nonneg_left (le_of_lt hk) (le_of_lt hK)
      _ = tol0 ^ 2 := by field_simp
  obtain ⟨y, hy⟩ := relajacionGo_succeeds [[d1, u], [u, d2]] [B1, B2] omega0 tol0
    k [0, 0] hres k (le_refl k)
  exact ⟨k, y, hy⟩

theorem spline_coeffs_four_succeeds (p0 p1 p2 p3 : Point)
    (h01 : p0.1 < p1.1) (h12 : p1.1 < p2.1) (h23 : p2.1 < p3.1) :
    ∃ (fuel : ℕ) (t : List ℚ × List ℚ × List ℚ × List ℚ),
      spline_coeffs [p0, p1, p2, p3] fuel = some t := by
  have hh0 : 0 < p1.1 - p0.1 := sub_pos.mpr h01
  have hh1 : 0 < p2.1 - p1.1 := sub_pos.mpr h12
  have hh2 : 0 < p3.1 - p2.1 := sub_pos.mpr h23
  obtain ⟨fuel, y, hy⟩ := sor2_fuel_exists (2 * ((p1.1 - p0.1) + (p2.1 - p1.1)))
    (2 * ((p2.1 - p1.1) + (p3.1 - p2.1))) (p2.1 - p1.1)
    (6 * ((p2.2 - p1.2) / (p2.1 - p1.1) - (p1.2 - p0.2) / (p1.1 - p0.1)))
    (6 * ((p3.2 - p2.2) / (p3.1 - p2.1) - (p2.2 - p1.2) / (p2.1 - p1.1)))
    (by linarith) (by linarith) (by linarith) (by linarith) (by linarith)
  have hsig : spline_sigmas [p0, p1, p2, p3] fuel = some (0 :: (y ++ [0])) := by
    have hy2 : relajacion (spline_system [p0, p1, p2, p3]).1
        (spline_system [p0, p1, p2, p3]).2
        (List.replicate (spline_system [p0, p1, p2, p3]).2.length 0)
        omega0 tol0 fuel = some y := hy
    simp only [spline_sigmas]
    rw [hy2]
    rfl
  refine ⟨fuel, coeffsFrom [p0, p1, p2, p3] (0 :: (y ++ [0])), ?_⟩
  simp only [spline_coeffs]
  rw [hsig]
  rfl

/-- Claim C7: sequences of fewer than 4 points, whether list or tuple, are
rejected with the invalid-input error before any computation, as is any
non-sequence input; a valid (strictly increasing) sequence of exactly 4
points succeeds, i.e. the call returns coefficient arrays for some fuel. -/
theorem trazador_min_size (bad pts : List Point) (fuel : ℕ)
    (hbad : bad.length < 4) (hfour : pts.length = 4)
    (hinc : List.Chain' (fun s t => s < t) (xcoords pts)) :
    trazador_cubico (PyValue.pyList bad) fuel = Except.error msgTooShort ∧
    trazador_cubico (PyValue.pyTuple bad) fuel = Except.error msgTooShort ∧
    trazador_cubico (PyValue.npArray pts) fuel = Except.error msgNotSeq ∧
    ∃ (fuel2 : ℕ) (t : List ℚ × List ℚ × List ℚ × List ℚ),
      trazador_cubico (PyValue.pyList pts) fuel2 = Except.ok (some t) := by
  refine ⟨?_, ?_, rfl, ?_⟩
  · simp only [trazador_cubico]
    rw [if_pos hbad]
  · simp only [trazador_cubico]
    rw [if_pos hbad]
  · rcases pts with _ | ⟨p0, _ | ⟨p1, _ | ⟨p2, _ | ⟨p3, _ | ⟨p4, rest⟩⟩⟩⟩⟩ <;>
      simp only [List.length_cons, List.length_nil] at hfour <;>
      try omega
    simp only [xcoords, List.map_cons, List.map_nil, List.chain'_cons,
      List.chain'_singleton, and_true] at hinc
    obtain ⟨h01, h12, h23⟩ := hinc
    obtain ⟨fuel2, t, ht⟩ := spline_coeffs_four_succeeds p0 p1 p2 p3 h01 h12 h23
    refine ⟨fuel2, t, ?_⟩
    simp only [trazador_cubico]
    rw [if_neg (by simp), ht]

/-- Witness for C7: the empty sequence is rejected, the spec's four-point
example succeeds. -/
theorem trazador_min_size_witness :
    trazador_cubico (PyValue.pyList []) 0 = Except.error msgTooShort ∧
    trazador_cubico (PyValue.pyTuple []) 0 = Except.error msgTooShort ∧
    trazador_cubico (PyValue.npArray demoPts) 0 = Except.error msgNotSeq ∧
    ∃ (fuel2 : ℕ) (t : List ℚ × List ℚ × List ℚ × List ℚ),
      trazador_cubico (PyValue.pyList demoPts) fuel2 = Except.ok (some t) :=
  trazador_min_size [] demoPts 0 (by decide) (by decide)
    (by norm_num [demoPts, xcoords, List.chain'_cons])

end NCSI
